import Mathlib

/-!
Verification of the relevance-ranking and metrics-aggregation core of the
ArXiv quantum paper triage agent (arxiv_quantum_agent.py).

Modelling conventions:
- Python strings are modelled as List Char; str.lower via Char.toLower.
- Python floats are modelled as exact rationals; every arithmetic operation
  performed by the code on these values (integer additions, min, division)
  is exact on the values that occur.
- re.findall with the four LaTeX patterns is modelled by a left-to-right
  scanner for patterns of the shape L(.*?)R with literal delimiters L, R:
  at each position, if L matches, the lazy group ends at the earliest
  following occurrence of R, and scanning resumes after that occurrence;
  otherwise the scanner advances one character.  re.DOTALL means the group
  may contain any character, which the scanner does.
- MetricsPlugin is modelled as a record of its counter fields plus the
  optional pending start timestamp; callbacks are state transformers taking
  the current wall-clock time as an explicit parameter.
-/

/-- Index of the first occurrence of pat in the list, if any
    (models Python substring search; the empty pattern occurs at 0). -/
def findOcc (pat : List Char) : List Char → Option Nat
  | [] => if pat.isEmpty then some 0 else none
  | c :: rest =>
      if pat.isPrefixOf (c :: rest) then some 0
      else (findOcc pat rest).map (fun n => n + 1)

/-- Python substring containment (the in operator on strings). -/
def isSubstring (pat s : List Char) : Bool :=
  (findOcc pat s).isSome

/-- Fuel-indexed scanner for re.findall of a lazy pattern L(.*?)R with
    literal delimiters, DOTALL semantics: leftmost match, group ends at the
    earliest occurrence of R after L, scanning resumes after the match. -/
def findallLazyAux (L R : List Char) : Nat → List Char → List (List Char)
  | 0, _ => []
  | _ + 1, [] => []
  | fuel + 1, c :: rest =>
      if L.isPrefixOf (c :: rest) then
        match findOcc R (List.drop L.length (c :: rest)) with
        | some j =>
            List.take j (List.drop L.length (c :: rest)) ::
              findallLazyAux L R fuel
                (List.drop (j + R.length) (List.drop L.length (c :: rest)))
        | none => findallLazyAux L R fuel rest
      else findallLazyAux L R fuel rest

/-- Model of re.findall(L + lazy group + R, text, re.DOTALL).  The fuel
    strictly exceeds the text length and every step shortens the text, so
    the scan always completes. -/
def findallLazy (L R : List Char) (s : List Char) : List (List Char) :=
  findallLazyAux L R (s.length + 1) s

/-- Python str.strip: remove whitespace from both ends. -/
def pyStrip (s : List Char) : List Char :=
  (((s.dropWhile Char.isWhitespace).reverse).dropWhile Char.isWhitespace).reverse

/-- Duplicate removal with a seen accumulator, as in the source loop
    (seen set plus append preserving first occurrence). -/
def dedupSeen {α : Type} [DecidableEq α] (seen : List α) : List α → List α
  | [] => []
  | x :: rest =>
      if x ∈ seen then dedupSeen seen rest
      else x :: dedupSeen (x :: seen) rest

/-- Remove duplicates while preserving first-seen order
    (the seen-set loop at the end of extract_latex_equations). -/
def dedupFirst {α : Type} [DecidableEq α] (l : List α) : List α :=
  dedupSeen [] l

/-- The four LaTeX delimiter pairs, in the declaration order of the
    patterns list in extract_latex_equations: display math, inline math,
    equation environment, align environment. -/
def latexPatterns : List (List Char × List Char) :=
  [("$$".toList, "$$".toList),
   ("$".toList, "$".toList),
   ("\\begin\x7bequation\x7d".toList, "\\end\x7bequation\x7d".toList),
   ("\\begin\x7balign\x7d".toList, "\\end\x7balign\x7d".toList)]

/-- The merged candidate list before duplicate removal: for each pattern in
    order, all matches, each stripped, empty strings discarded. -/
def candidateEquations (text : List Char) : List (List Char) :=
  latexPatterns.foldl
    (fun eqs p =>
      eqs ++ ((findallLazy p.1 p.2 text).map pyStrip).filter (fun m => !m.isEmpty))
    []

/-- Model of extract_latex_equations: candidate matches of the four
    patterns in declaration order, stripped, non-empty, then duplicate
    removal preserving first-seen order. -/
def extract_latex_equations (text : List Char) : List (List Char) :=
  dedupFirst (candidateEquations text)

/-- Paper record as consumed by calculate_relevance_score: the title and
    abstract strings, and the age in days of the publication timestamp
    relative to evaluation time (none models a timestamp whose parse raises,
    which the bare except swallows). -/
structure ArxivPaper where
  title : List Char
  abstract : List Char
  days_old : Option Int
deriving DecidableEq

/-- Recency bonus of calculate_relevance_score: +15 when the paper is less
    than 7 days old, otherwise +10 when less than 30 days, otherwise 0;
    an unparseable timestamp contributes nothing. -/
def recencyBonus (d : Option Int) : ℚ :=
  match d with
  | none => 0
  | some days => if days < 7 then 15 else if days < 30 then 10 else 0

/-- One iteration of the keyword loop in calculate_relevance_score:
    +20 when the lowered keyword occurs in the lowered title and,
    independently, +10 when it occurs in the lowered abstract. -/
def scoreStep (title_lower abstract_lower : List Char) (s : ℚ) (kw : List Char) : ℚ :=
  let keyword_lower := kw.map Char.toLower
  let s1 := if isSubstring keyword_lower title_lower then s + 20 else s
  if isSubstring keyword_lower abstract_lower then s1 + 10 else s1

/-- Model of calculate_relevance_score: keyword contributions accumulated
    over the user keyword list, plus the recency bonus, capped at 100. -/
def calculate_relevance_score (paper : ArxivPaper) (user_keywords : List (List Char)) : ℚ :=
  let title_lower := paper.title.map Char.toLower
  let abstract_lower := paper.abstract.map Char.toLower
  let score := user_keywords.foldl (scoreStep title_lower abstract_lower) 0
  min (score + recencyBonus paper.days_old) 100

/-- Total contribution of one keyword as a natural number, used to relate
    the rational fold to an executable computation. -/
def keywordHits (title_lower abstract_lower : List Char) (kw : List Char) : Nat :=
  (if isSubstring (kw.map Char.toLower) title_lower then 20 else 0) +
    (if isSubstring (kw.map Char.toLower) abstract_lower then 10 else 0)

/-- Counter state of MetricsPlugin: the fields set in the constructor.
    Timestamps and durations are rationals; start_time is none initially
    and after construction only ever holds the last before-callback time
    (the code never resets it to None). -/
structure MetricsState where
  agent_calls : Nat
  papers_processed : Nat
  total_processing_time : ℚ
  successful_operations : Nat
  failed_operations : Nat
  start_time : Option ℚ
deriving DecidableEq

/-- State produced by MetricsPlugin.__init__: every counter zero, no
    pending start timestamp. -/
def initialMetrics : MetricsState :=
  { agent_calls := 0, papers_processed := 0, total_processing_time := 0,
    successful_operations := 0, failed_operations := 0, start_time := none }

/-- Model of MetricsPlugin.before_agent_callback at wall-clock time now:
    increments agent_calls and overwrites the pending start timestamp. -/
def before_agent_callback (now : ℚ) (s : MetricsState) : MetricsState :=
  { s with agent_calls := s.agent_calls + 1, start_time := some now }

/-- Model of MetricsPlugin.after_agent_callback at wall-clock time now:
    when a start timestamp is pending, adds the elapsed duration to
    total_processing_time and increments successful_operations; the code
    leaves start_time as it was in both branches. -/
def after_agent_callback (now : ℚ) (s : MetricsState) : MetricsState :=
  match s.start_time with
  | some t =>
      { s with total_processing_time := s.total_processing_time + (now - t),
               successful_operations := s.successful_operations + 1 }
  | none => s

/-- Python round half-to-even of a rational to an integer. -/
def roundHalfEven (x : ℚ) : ℤ :=
  let f := ⌊x⌋
  let frac := x - f
  if frac < 1 / 2 then f
  else if 1 / 2 < frac then f + 1
  else if f % 2 = 0 then f else f + 1

/-- Python round(x, 2) on an exact rational. -/
def pyRound2 (x : ℚ) : ℚ :=
  (roundHalfEven (x * 100) : ℚ) / 100

/-- Fields of the dictionary returned by get_metrics_summary. -/
structure MetricsSummary where
  total_agent_calls : Nat
  papers_processed : Nat
  total_processing_time_seconds : ℚ
  average_processing_time_seconds : ℚ
  successful_operations : Nat
  failed_operations : Nat
  success_rate_percent : ℚ
deriving DecidableEq

/-- Model of MetricsPlugin.get_metrics_summary: success rate is
    successes over completed operations times 100 (0 when none completed),
    average time is total time over successes (0 when none), with the
    rounding the code applies. -/
def get_metrics_summary (s : MetricsState) : MetricsSummary :=
  let success_rate : ℚ :=
    if 0 < s.successful_operations + s.failed_operations then
      (s.successful_operations : ℚ)
        / ((s.successful_operations : ℚ) + (s.failed_operations : ℚ)) * 100
    else 0
  let avg_processing_time : ℚ :=
    if 0 < s.successful_operations then
      s.total_processing_time / (s.successful_operations : ℚ)
    else 0
  { total_agent_calls := s.agent_calls,
    papers_processed := s.papers_processed,
    total_processing_time_seconds := pyRound2 s.total_processing_time,
    average_processing_time_seconds := pyRound2 avg_processing_time,
    successful_operations := s.successful_operations,
    failed_operations := s.failed_operations,
    success_rate_percent := pyRound2 success_rate }

/-- An event in a single-threaded run over one MetricsPlugin instance:
    a before_agent_callback or an after_agent_callback at a given time. -/
inductive MetricsEvent where
  | beforeCb (now : ℚ)
  | afterCb (now : ℚ)
deriving DecidableEq

/-- Apply one callback event to the plugin state. -/
def metricsStep (s : MetricsState) (e : MetricsEvent) : MetricsState :=
  match e with
  | .beforeCb now => before_agent_callback now s
  | .afterCb now => after_agent_callback now s

/-- Run a sequence of callback events on a freshly constructed plugin. -/
def runTrace (events : List MetricsEvent) : MetricsState :=
  events.foldl metricsStep initialMetrics

/-- Number of before_agent_callback events in a trace. -/
def countBefore (events : List MetricsEvent) : Nat :=
  events.countP (fun e => match e with | .beforeCb _ => true | .afterCb _ => false)

/-- Number of after_agent_callback events in a trace. -/
def countAfter (events : List MetricsEvent) : Nat :=
  events.countP (fun e => match e with | .beforeCb _ => false | .afterCb _ => true)

/-- Qualitative ratings produced by AgentEvaluator.evaluate_performance. -/
inductive Rating where
  | excellent
  | good
  | acceptable
  | needsImprovement
deriving DecidableEq

/-- The ratings dictionary returned by evaluate_performance. -/
structure PerfRatings where
  speed : Rating
  reliability : Rating
deriving DecidableEq

/-- The metrics dictionary as read by evaluate_performance: only the two
    keys it accesses, each possibly missing. -/
structure PerfMetricsInput where
  average_processing_time_seconds : Option ℚ
  success_rate_percent : Option ℚ
deriving DecidableEq

/-- Model of AgentEvaluator.evaluate_performance: dict.get defaults of
    999 and 0 for missing keys, followed by the threshold chains on
    average processing time and success rate. -/
def evaluate_performance (metrics : PerfMetricsInput) : PerfRatings :=
  let avg_time := metrics.average_processing_time_seconds.getD 999
  let speed : Rating :=
    if avg_time < 5 then .excellent
    else if avg_time < 15 then .good
    else if avg_time < 30 then .acceptable
    else .needsImprovement
  let success_rate := metrics.success_rate_percent.getD 0
  let reliability : Rating :=
    if 95 ≤ success_rate then .excellent
    else if 85 ≤ success_rate then .good
    else if 70 ≤ success_rate then .acceptable
    else .needsImprovement
  ⟨speed, reliability⟩

/-- Transcription of the specified speed thresholds, written from the spec
    wording (less than 5 Excellent, less than 15 Good, less than 30
    Acceptable, otherwise Needs Improvement) to compare against the code. -/
def speedRatingSpec (t : ℚ) : Rating :=
  if t < 5 then .excellent
  else if t < 15 then .good
  else if t < 30 then .acceptable
  else .needsImprovement

/-- Transcription of the specified reliability thresholds, written from the
    spec wording (at least 95 Excellent, at least 85 Good, at least 70
    Acceptable, otherwise Needs Improvement) to compare against the code. -/
def reliabilityRatingSpec (r : ℚ) : Rating :=
  if 95 ≤ r then .excellent
  else if 85 ≤ r then .good
  else if 70 ≤ r then .acceptable
  else .needsImprovement

/-! Shared lemmas about duplicate removal. -/

/-- Every output element of dedupSeen avoids the seen accumulator and the
    output has no duplicates. -/
theorem dedupSeen_spec {α : Type} [DecidableEq α] :
    ∀ (l seen : List α),
      (dedupSeen seen l).Nodup ∧ ∀ x ∈ dedupSeen seen l, x ∉ seen := by
  intro l
  induction l with
  | nil =>
      intro seen
      constructor
      · simp [dedupSeen]
      · intro x hx
        simp [dedupSeen] at hx
  | cons y rest ih =>
      intro seen
      by_cases hy : y ∈ seen
      · simp only [dedupSeen, if_pos hy]
        exact ih seen
      · simp only [dedupSeen, if_neg hy]
        obtain ⟨h1, h2⟩ := ih (y :: seen)
        refine ⟨List.nodup_cons.mpr ⟨fun hmem => (h2 y hmem) (List.mem_cons_self y seen), h1⟩, ?_⟩
        intro x hx
        rcases List.mem_cons.mp hx with rfl | hx2
        · exact hy
        · intro hxseen
          exact (h2 x hx2) (List.mem_cons_of_mem y hxseen)

/-- Removing duplicates yields a sublist of the input, so the first-seen
    order of the survivors is preserved. -/
theorem dedupSeen_sublist {α : Type} [DecidableEq α] :
    ∀ (l seen : List α), (dedupSeen seen l).Sublist l := by
  intro l
  induction l with
  | nil =>
      intro seen
      simp [dedupSeen]
  | cons y rest ih =>
      intro seen
      by_cases hy : y ∈ seen
      · simp only [dedupSeen, if_pos hy]
        exact (ih seen).cons y
      · simp only [dedupSeen, if_neg hy]
        exact (ih (y :: seen)).cons₂ y

/-! Shared lemmas relating the rational score fold to natural-number
    keyword contributions. -/

/-- One step of the keyword loop adds exactly the keyword hit total. -/
theorem scoreStep_eq_add_hits (t a : List Char) (s : ℚ) (kw : List Char) :
    scoreStep t a s kw = s + (keywordHits t a kw : ℚ) := by
  simp only [scoreStep, keywordHits]
  split_ifs <;> push_cast <;> ring

/-- The keyword fold adds the sum of all keyword hit totals. -/
theorem foldl_scoreStep_eq (t a : List Char) :
    ∀ (kws : List (List Char)) (s : ℚ),
      List.foldl (scoreStep t a) s kws = s + ((kws.map (keywordHits t a)).sum : ℚ) := by
  intro kws
  induction kws with
  | nil => intro s; simp
  | cons k rest ih =>
      intro s
      simp only [List.foldl_cons, List.map_cons, List.sum_cons]
      rw [scoreStep_eq_add_hits, ih]
      push_cast
      ring

/-- Closed form of calculate_relevance_score: cap of keyword hit sum plus
    recency bonus. -/
theorem calculate_relevance_score_eq (p : ArxivPaper) (kws : List (List Char)) :
    calculate_relevance_score p kws =
      min (((kws.map (keywordHits (p.title.map Char.toLower)
          (p.abstract.map Char.toLower))).sum + recencyBonus p.days_old)) 100 := by
  simp only [calculate_relevance_score]
  rw [foldl_scoreStep_eq]
  rw [zero_add]

/-- The recency bonus is never negative. -/
theorem recencyBonus_nonneg (d : Option Int) : 0 ≤ recencyBonus d := by
  cases d with
  | none => simp [recencyBonus]
  | some days =>
      simp only [recencyBonus]
      split_ifs <;> norm_num

/-! Shared lemmas about the MetricsPlugin state machine. -/

/-- The after callback never touches agent_calls. -/
theorem after_cb_agent_calls (now : ℚ) (s : MetricsState) :
    (after_agent_callback now s).agent_calls = s.agent_calls := by
  cases h : s.start_time <;> simp [after_agent_callback, h]

/-- The after callback never touches failed_operations. -/
theorem after_cb_failed (now : ℚ) (s : MetricsState) :
    (after_agent_callback now s).failed_operations = s.failed_operations := by
  cases h : s.start_time <;> simp [after_agent_callback, h]

/-- The after callback raises successful_operations by at most one. -/
theorem after_cb_succ_le (now : ℚ) (s : MetricsState) :
    (after_agent_callback now s).successful_operations ≤ s.successful_operations + 1 := by
  cases h : s.start_time <;> simp [after_agent_callback, h]

/-- Running a trace from any state adds exactly the number of before
    events to agent_calls. -/
theorem run_agent_calls :
    ∀ (tr : List MetricsEvent) (s : MetricsState),
      (List.foldl metricsStep s tr).agent_calls = s.agent_calls + countBefore tr := by
  intro tr
  induction tr with
  | nil => intro s; simp [countBefore]
  | cons e rest ih =>
      intro s
      cases e with
      | beforeCb now =>
          simp only [List.foldl_cons, metricsStep]
          rw [ih]
          simp [countBefore, before_agent_callback, List.countP_cons]
          omega
      | afterCb now =>
          simp only [List.foldl_cons, metricsStep]
          rw [ih, after_cb_agent_calls]
          simp [countBefore, List.countP_cons]

/-- Running a trace never changes failed_operations. -/
theorem run_failed :
    ∀ (tr : List MetricsEvent) (s : MetricsState),
      (List.foldl metricsStep s tr).failed_operations = s.failed_operations := by
  intro tr
  induction tr with
  | nil => intro s; simp
  | cons e rest ih =>
      intro s
      cases e with
      | beforeCb now =>
          simp only [List.foldl_cons, metricsStep]
          rw [ih]
          simp [before_agent_callback]
      | afterCb now =>
          simp only [List.foldl_cons, metricsStep]
          rw [ih, after_cb_failed]

/-- Running a trace raises successful_operations by at most the number of
    after events. -/
theorem run_succ_le :
    ∀ (tr : List MetricsEvent) (s : MetricsState),
      (List.foldl metricsStep s tr).successful_operations
        ≤ s.successful_operations + countAfter tr := by
  intro tr
  induction tr with
  | nil => intro s; simp [countAfter]
  | cons e rest ih =>
      intro s
      cases e with
      | beforeCb now =>
          simp only [List.foldl_cons, metricsStep]
          refine le_trans (ih _) ?_
          simp [countAfter, before_agent_callback, List.countP_cons]
      | afterCb now =>
          simp only [List.foldl_cons, metricsStep]
          refine le_trans (ih _) ?_
          have h := after_cb_succ_le now s
          simp [countAfter, List.countP_cons]
          omega

/-- Python round(100.0, 2) is exactly 100. -/
theorem pyRound2_100 : pyRound2 100 = 100 := by
  simp only [pyRound2, roundHalfEven]
  norm_num

/-! Claim theorems. -/

/-- C4: for every paper record and every list of keyword strings,
    calculate_relevance_score returns a value in the closed interval
    from 0 to 100. -/
theorem relevance_score_in_range (p : ArxivPaper) (kws : List (List Char)) :
    0 ≤ calculate_relevance_score p kws ∧ calculate_relevance_score p kws ≤ 100 := by
  rw [calculate_relevance_score_eq]
  refine ⟨le_min ?_ (by norm_num), min_le_right _ _⟩
  have hb := recencyBonus_nonneg p.days_old
  positivity

/-- C9: calculate_relevance_score is monotone in the keyword list:
    appending one extra keyword never lowers the score, since each keyword
    contributes a non-negative amount and the final cap is monotone. -/
theorem relevance_score_monotone (p : ArxivPaper) (kws : List (List Char)) (k : List Char) :
    calculate_relevance_score p kws ≤ calculate_relevance_score p (kws ++ [k]) := by
  rw [calculate_relevance_score_eq, calculate_relevance_score_eq]
  refine min_le_min (add_le_add_right ?_ _) le_rfl
  have h : ((kws.map (keywordHits (p.title.map Char.toLower)
        (p.abstract.map Char.toLower))).sum : ℕ)
      ≤ (((kws ++ [k]).map (keywordHits (p.title.map Char.toLower)
        (p.abstract.map Char.toLower))).sum : ℕ) := by
    simp [List.map_append]
  exact_mod_cast h

/-- C10: calculate_relevance_score counts each occurrence of a keyword in
    the input list independently, so it is not invariant under duplicate
    removal: a keyword matching title and abstract listed twice scores its
    contributions twice, differing from the score on the deduplicated list
    below saturation. -/
theorem relevance_score_counts_duplicates :
    ∃ (p : ArxivPaper) (kws : List (List Char)),
      dedupFirst kws ≠ kws ∧
      calculate_relevance_score p kws ≠ calculate_relevance_score p (dedupFirst kws) := by
  refine ⟨⟨"quantum".toList, "quantum".toList, none⟩,
    ["quantum".toList, "quantum".toList], by decide, ?_⟩
  rw [calculate_relevance_score_eq, calculate_relevance_score_eq]
  have h1 : ((["quantum".toList, "quantum".toList].map
      (keywordHits ("quantum".toList.map Char.toLower)
        ("quantum".toList.map Char.toLower))).sum) = 60 := by decide
  have h2 : (((dedupFirst ["quantum".toList, "quantum".toList]).map
      (keywordHits ("quantum".toList.map Char.toLower)
        ("quantum".toList.map Char.toLower))).sum) = 30 := by decide
  rw [show ((⟨"quantum".toList, "quantum".toList, none⟩ : ArxivPaper)).title
      = "quantum".toList from rfl]
  rw [show ((⟨"quantum".toList, "quantum".toList, none⟩ : ArxivPaper)).abstract
      = "quantum".toList from rfl]
  rw [show ((⟨"quantum".toList, "quantum".toList, none⟩ : ArxivPaper)).days_old
      = none from rfl]
  rw [h1, h2]
  simp only [recencyBonus]
  norm_num

/-- C5: on the input with one display equation followed by one inline
    equation, extraction returns exactly those two equations, with the
    display-pattern match before the inline-pattern match per the fixed
    pattern priority order, and the candidate list already has no
    duplicates. -/
theorem extract_display_inline_example :
    extract_latex_equations ("$$a=b$$ and $c=d$".toList)
        = ["a=b".toList, "c=d".toList] ∧
      candidateEquations ("$$a=b$$ and $c=d$".toList)
        = ["a=b".toList, "c=d".toList] := by
  decide

/-- C6: for every input string the extracted equation list has no duplicate
    strings by value and is a sublist of the merged candidate list, so
    duplicate removal preserves first-seen order; in particular the input
    with the same inline equation twice extracts to that single equation. -/
theorem extract_nodup_first_seen :
    (∀ text : List Char,
        (extract_latex_equations text).Nodup ∧
          (extract_latex_equations text).Sublist (candidateEquations text)) ∧
      extract_latex_equations ("$x$ $x$".toList) = ["x".toList] := by
  constructor
  · intro text
    constructor
    · exact (dedupSeen_spec (candidateEquations text) []).1
    · exact dedupSeen_sublist (candidateEquations text) []
  · decide

/-- C1 counterexample: after one before/after pair the pending start
    timestamp is still set, and a second end call with no intervening start
    changes the counters, refuting the claim that the end callback clears
    the pending timestamp. -/
theorem after_callback_clears_counterexample :
    (after_agent_callback 1 (before_agent_callback 0 initialMetrics)).start_time ≠ none ∧
      (after_agent_callback 2 (after_agent_callback 1
          (before_agent_callback 0 initialMetrics))).successful_operations
        ≠ (after_agent_callback 1
            (before_agent_callback 0 initialMetrics)).successful_operations := by
  decide

/-- C1 amended: every end call that finds a pending start timestamp adds
    the elapsed duration to the total, increments successful operations,
    and leaves the pending start timestamp in place, so a second end call
    with no intervening start increments the counters again. -/
theorem after_callback_keeps_pending_start (s : MetricsState) (t now now2 : ℚ)
    (h : s.start_time = some t) :
    (after_agent_callback now s).total_processing_time
        = s.total_processing_time + (now - t) ∧
      (after_agent_callback now s).successful_operations
        = s.successful_operations + 1 ∧
      (after_agent_callback now s).start_time = some t ∧
      (after_agent_callback now2 (after_agent_callback now s)).successful_operations
        = s.successful_operations + 2 := by
  refine ⟨?_, ?_, ?_, ?_⟩ <;> simp [after_agent_callback, h]

/-- Witness for the amended C1 theorem at a concrete state. -/
theorem after_callback_keeps_pending_start_witness :
    (after_agent_callback 1 (before_agent_callback 0 initialMetrics)).total_processing_time
        = (before_agent_callback 0 initialMetrics).total_processing_time + (1 - 0) ∧
      (after_agent_callback 1 (before_agent_callback 0 initialMetrics)).successful_operations
        = (before_agent_callback 0 initialMetrics).successful_operations + 1 ∧
      (after_agent_callback 1 (before_agent_callback 0 initialMetrics)).start_time = some 0 ∧
      (after_agent_callback 2 (after_agent_callback 1
          (before_agent_callback 0 initialMetrics))).successful_operations
        = (before_agent_callback 0 initialMetrics).successful_operations + 2 :=
  after_callback_keeps_pending_start (before_agent_callback 0 initialMetrics) 0 1 2 rfl

/-- C2 counterexample: one before call followed by three after calls gives
    three successful operations against one agent call, violating the
    claimed invariant on an unrestricted callback sequence. -/
theorem metrics_invariant_counterexample :
    ¬((runTrace [.beforeCb 0, .afterCb 1, .afterCb 2, .afterCb 3]).successful_operations
        + (runTrace [.beforeCb 0, .afterCb 1, .afterCb 2, .afterCb 3]).failed_operations
      ≤ (runTrace [.beforeCb 0, .afterCb 1, .afterCb 2, .afterCb 3]).agent_calls + 1) := by
  decide

/-- C2 amended: for every callback sequence from a fresh plugin in which
    the after calls do not outnumber the before calls, the final state
    satisfies successful plus failed operations at most agent calls plus
    one. -/
theorem metrics_invariant_balanced (tr : List MetricsEvent)
    (h : countAfter tr ≤ countBefore tr) :
    (runTrace tr).successful_operations + (runTrace tr).failed_operations
      ≤ (runTrace tr).agent_calls + 1 := by
  have h1 := run_agent_calls tr initialMetrics
  have h2 := run_failed tr initialMetrics
  have h3 := run_succ_le tr initialMetrics
  simp only [runTrace, initialMetrics] at h1 h2 h3 ⊢
  omega

/-- Witness for the amended C2 theorem at a concrete balanced trace. -/
theorem metrics_invariant_balanced_witness :
    countAfter [MetricsEvent.beforeCb 0, MetricsEvent.afterCb 2]
        ≤ countBefore [MetricsEvent.beforeCb 0, MetricsEvent.afterCb 2] ∧
      (runTrace [MetricsEvent.beforeCb 0, MetricsEvent.afterCb 2]).successful_operations
          + (runTrace [MetricsEvent.beforeCb 0, MetricsEvent.afterCb 2]).failed_operations
        ≤ (runTrace [MetricsEvent.beforeCb 0, MetricsEvent.afterCb 2]).agent_calls + 1 :=
  ⟨by decide, metrics_invariant_balanced [MetricsEvent.beforeCb 0, MetricsEvent.afterCb 2]
    (by decide)⟩

/-- C3: no callback ever increments failed_operations, so in every state
    reachable from a fresh plugin failed_operations is zero, and whenever
    at least one operation has completed the reported success rate is
    exactly 100 percent. -/
theorem failed_ops_never_incremented :
    (∀ (now : ℚ) (s : MetricsState),
        (before_agent_callback now s).failed_operations = s.failed_operations ∧
          (after_agent_callback now s).failed_operations = s.failed_operations) ∧
      ∀ tr : List MetricsEvent,
        (runTrace tr).failed_operations = 0 ∧
          (0 < (runTrace tr).successful_operations →
            (get_metrics_summary (runTrace tr)).success_rate_percent = 100) := by
  constructor
  · intro now s
    exact ⟨rfl, after_cb_failed now s⟩
  · intro tr
    have h2 : (runTrace tr).failed_operations = 0 := by
      have := run_failed tr initialMetrics
      simpa [runTrace, initialMetrics] using this
    refine ⟨h2, ?_⟩
    intro hpos
    simp only [get_metrics_summary, h2]
    have hcond : 0 < (runTrace tr).successful_operations + 0 := by omega
    rw [if_pos hcond]
    have hs : ((runTrace tr).successful_operations : ℚ) ≠ 0 := by
      exact_mod_cast Nat.pos_iff_ne_zero.mp hpos
    have : ((runTrace tr).successful_operations : ℚ)
        / (((runTrace tr).successful_operations : ℚ) + ((0 : Nat) : ℚ)) * 100 = 100 := by
      push_cast
      field_simp
    rw [this, pyRound2_100]

/-- Witness for C3 at a concrete trace with one completed operation. -/
theorem failed_ops_never_incremented_witness :
    (runTrace [MetricsEvent.beforeCb 0, MetricsEvent.afterCb 2]).failed_operations = 0 ∧
      (get_metrics_summary
          (runTrace [MetricsEvent.beforeCb 0, MetricsEvent.afterCb 2])).success_rate_percent
        = 100 :=
  ⟨(failed_ops_never_incremented.2 [MetricsEvent.beforeCb 0, MetricsEvent.afterCb 2]).1,
    (failed_ops_never_incremented.2 [MetricsEvent.beforeCb 0, MetricsEvent.afterCb 2]).2
      (by decide)⟩

/-- C7: an end call on a state with no pending start timestamp is a no-op:
    the state, hence every counter field, is unchanged. -/
theorem after_callback_no_pending_noop (s : MetricsState) (now : ℚ)
    (h : s.start_time = none) :
    after_agent_callback now s = s := by
  simp [after_agent_callback, h]

/-- Witness for C7 on the freshly constructed state. -/
theorem after_callback_no_pending_noop_witness :
    after_agent_callback 5 initialMetrics = initialMetrics :=
  after_callback_no_pending_noop initialMetrics 5 rfl

/-- C8: evaluate_performance rates speed and reliability exactly by the
    specified threshold chains applied to the metric values, treats a
    missing time key as 999 and a missing rate key as 0, and on average
    time 3 with success rate 96 rates both dimensions Excellent. -/
theorem evaluate_performance_thresholds :
    (∀ m : PerfMetricsInput,
        evaluate_performance m
          = ⟨speedRatingSpec (m.average_processing_time_seconds.getD 999),
             reliabilityRatingSpec (m.success_rate_percent.getD 0)⟩) ∧
      evaluate_performance ⟨none, none⟩
        = ⟨speedRatingSpec 999, reliabilityRatingSpec 0⟩ ∧
      evaluate_performance ⟨some 3, some 96⟩
        = ⟨Rating.excellent, Rating.excellent⟩ := by
  refine ⟨fun m => rfl, rfl, ?_⟩
  decide
